import Mathlib

/-!
Verification of `src/engine/pdf_to_image.c` (fast PDF page → grayscale PNG).

The file embeds the glue logic of `main` and `write_png_fast` from the C
source.  The two external libraries (MuPDF's fitz layer and libpng) are not
part of the repository; where their behaviour decides a property they are
modelled from the spec, which treats them as opaque services providing
{open-document, load-page, bound-page, create-raster-surface,
render-page-onto-surface} and {begin-image-stream, write-header,
set-compression-effort, write-scanlines, write-trailer}.

Geometry is exact (ℚ); the fixed zoom 4.0 and the page boxes involved are
exactly representable, so no floating-point rounding is modelled.
-/

/- Batteries marks the ℚ field operations `@[irreducible]`, which blocks
`decide`/`rfl` evaluation of concrete geometry.  Irreducibility is only an
elaborator unfolding hint, so restoring the default reducibility is sound; it
lets the kernel-checked evaluations below go through. -/
set_option allowUnsafeReducibility true
attribute [semireducible] Rat.mul Rat.add Rat.sub Rat.inv Rat.div

namespace Kui

/-! ## Geometry: fitz rectangles and matrices -/

/-- A floating rectangle (`fz_rect`), modelled over ℚ. -/
structure FzRect where
  x0 : ℚ
  y0 : ℚ
  x1 : ℚ
  y1 : ℚ
deriving DecidableEq

/-- An integer rectangle (`fz_irect`). -/
structure FzIrect where
  x0 : ℤ
  y0 : ℤ
  x1 : ℤ
  y1 : ℤ
deriving DecidableEq

/-- A 2D affine matrix (`fz_matrix`), row-vector convention: a point `(x, y)`
maps to `(x*a + y*c + e, x*b + y*d + f)`. -/
structure FzMatrix where
  a : ℚ
  b : ℚ
  c : ℚ
  d : ℚ
  e : ℚ
  f : ℚ
deriving DecidableEq

/-- `fz_scale sx sy`: a pure scale matrix. -/
def fz_scale (sx sy : ℚ) : FzMatrix := ⟨sx, 0, 0, sy, 0, 0⟩

/-- `fz_concat m1 m2`: matrix product; applying the result is applying `m1`
then `m2`. -/
def fz_concat (m1 m2 : FzMatrix) : FzMatrix :=
  { a := m1.a * m2.a + m1.b * m2.c
    b := m1.a * m2.b + m1.b * m2.d
    c := m1.c * m2.a + m1.d * m2.c
    d := m1.c * m2.b + m1.d * m2.d
    e := m1.e * m2.a + m1.f * m2.c + m2.e
    f := m1.e * m2.b + m1.f * m2.d + m2.f }

/-- `fz_transform_point`: apply a matrix to a point. -/
def fz_transform_point (m : FzMatrix) (x y : ℚ) : ℚ × ℚ :=
  (x * m.a + y * m.c + m.e, x * m.b + y * m.d + m.f)

/-- `fz_transform_rect`: transform the four corners and take the axis-aligned
bounding box of the images. -/
def fz_transform_rect (r : FzRect) (m : FzMatrix) : FzRect :=
  let p00 := fz_transform_point m r.x0 r.y0
  let p01 := fz_transform_point m r.x0 r.y1
  let p10 := fz_transform_point m r.x1 r.y0
  let p11 := fz_transform_point m r.x1 r.y1
  { x0 := min (min p00.1 p01.1) (min p10.1 p11.1)
    y0 := min (min p00.2 p01.2) (min p10.2 p11.2)
    x1 := max (max p00.1 p01.1) (max p10.1 p11.1)
    y1 := max (max p00.2 p01.2) (max p10.2 p11.2) }

/-- Floor of a rational, in executable form (Euclidean division of numerator
by denominator); shown below to agree with `Int.floor`. -/
def qfloor (q : ℚ) : ℤ := q.num / (q.den : ℤ)

/-- Ceiling of a rational, in executable form; shown below to agree with
`Int.ceil`. -/
def qceil (q : ℚ) : ℤ := -qfloor (-q)

theorem qfloor_eq (q : ℚ) : qfloor q = ⌊q⌋ := Rat.floor_def.symm

theorem qceil_eq (q : ℚ) : qceil q = ⌈q⌉ := by
  rw [qceil, qfloor_eq, Int.floor_neg, neg_neg]

/-- Modelled from the spec: `fz_round_rect` rounds a transformed rectangle
"outward to integer pixel bounds" (floor the minima, ceil the maxima).  MuPDF
itself is not part of the repository. -/
def fz_round_rect (r : FzRect) : FzIrect :=
  { x0 := qfloor r.x0, y0 := qfloor r.y0, x1 := qceil r.x1, y1 := qceil r.y1 }

/-- `fz_round_rect` really rounds outward: the rounded bounds contain the
exact transformed rectangle. -/
theorem fz_round_rect_outward (r : FzRect) :
    ((fz_round_rect r).x0 : ℚ) ≤ r.x0 ∧ (r.x1 : ℚ) ≤ ((fz_round_rect r).x1 : ℚ) ∧
    ((fz_round_rect r).y0 : ℚ) ≤ r.y0 ∧ (r.y1 : ℚ) ≤ ((fz_round_rect r).y1 : ℚ) := by
  refine ⟨?_, ?_, ?_, ?_⟩ <;>
    simp [fz_round_rect, qfloor_eq, qceil_eq, Int.floor_le, Int.le_ceil]

/-- Width of an integer rectangle in pixels. -/
def irectW (b : FzIrect) : ℕ := (b.x1 - b.x0).toNat

/-- Height of an integer rectangle in pixels. -/
def irectH (b : FzIrect) : ℕ := (b.y1 - b.y0).toNat

/-- Is a (device-space) point inside an integer rectangle? -/
def pointInIrect (b : FzIrect) (p : ℚ × ℚ) : Prop :=
  (b.x0 : ℚ) ≤ p.1 ∧ p.1 ≤ (b.x1 : ℚ) ∧ (b.y0 : ℚ) ≤ p.2 ∧ p.2 ≤ (b.y1 : ℚ)

instance (b : FzIrect) (p : ℚ × ℚ) : Decidable (pointInIrect b p) := by
  unfold pointInIrect; infer_instance

/-! ## Pixel buffers (`fz_pixmap`) and the rendering engine -/

/-- A pixel buffer: width, height, components per pixel, stride (bytes per
row) and the byte contents, addressed by offset from the sample base. -/
structure FzPixmap where
  w : ℕ
  h : ℕ
  n : ℕ
  stride : ℕ
  samples : ℕ → ℕ

/-- Components of the gray colorspace (`fz_device_gray`). -/
def grayN : ℕ := 1

/-- Modelled from the spec: `fz_new_pixmap_with_bbox` allocates a buffer
sized to the rounded bounds; width and height come from the bbox, the stride
is `w * n` bytes per row (spec: stride ≥ width), and the fresh memory holds
arbitrary (uninitialized) bytes, supplied here as `garbage`.  The C call
passes `alpha = 1`, so a gray pixmap carries `n = grayN + 1 = 2` components.
MuPDF itself is not part of the repository. -/
def fz_new_pixmap_with_bbox (csN : ℕ) (bbox : FzIrect) (alpha : ℕ)
    (garbage : ℕ → ℕ) : FzPixmap :=
  let w := irectW bbox
  { w := w
    h := irectH bbox
    n := csN + alpha
    stride := w * (csN + alpha)
    samples := garbage }

/-- Modelled from the spec: `fz_clear_pixmap_with_value` fills every sample of
the allocated region (all `stride * h` bytes) with the given value; bytes
outside the buffer are untouched. -/
def fz_clear_pixmap_with_value (pix : FzPixmap) (v : ℕ) : FzPixmap :=
  { pix with samples := fun o => if o < pix.stride * pix.h then v else pix.samples o }

/-- A loaded page: its intrinsic bounding box, and its content as an opaque
painting function.  Modelled from the spec: rendering a page through a device
writes some bytes of the destination buffer, and what is written depends on
the effective transform; `paint m o = some v` means that rendering with
effective transform `m` writes byte `v` at buffer offset `o`, `none` means
the content does not cover that byte. -/
structure FzPage where
  bound : FzRect
  paint : FzMatrix → ℕ → Option ℕ

/-- A loaded document: its list of pages (`fz_load_page` indexes into it). -/
structure FzDocument where
  pages : List FzPage

/-- A draw device (`fz_new_draw_device ctx transform dest`): it remembers the
transform it was created with and the destination pixmap. -/
structure FzDevice where
  transform : FzMatrix
  dest : FzPixmap

/-- `fz_new_draw_device`: bind a transform and a destination pixmap. -/
def fz_new_draw_device (transform : FzMatrix) (dest : FzPixmap) : FzDevice :=
  ⟨transform, dest⟩

/-- The effective transform a draw device renders with when the page is run
with `ctm`: the device concatenates the incoming ctm with its own transform
(MuPDF draw device: `fz_concat(in_ctm, dev->transform)`). -/
def renderCtm (devTransform ctm : FzMatrix) : FzMatrix :=
  fz_concat ctm devTransform

/-- `fz_run_page page dev ctm`: render the page content onto the device's
destination pixmap.  Bytes of the allocated region covered by content (under
the effective transform) are overwritten; all other bytes keep their previous
value. -/
def fz_run_page (page : FzPage) (dev : FzDevice) (ctm : FzMatrix) : FzPixmap :=
  let eff := renderCtm dev.transform ctm
  { dev.dest with
    samples := fun o =>
      if o < dev.dest.stride * dev.dest.h then
        (page.paint eff o).getD (dev.dest.samples o)
      else dev.dest.samples o }

/-! ## The encoder (`write_png_fast`) -/

/-- Modelled from the spec: the compression library's lowest effort level
(fastest encode, weakest size reduction); zlib's `Z_BEST_SPEED = 1`. -/
def zBestSpeed : ℕ := 1

/-- Bytes per emitted scanline for an 8-bit grayscale image: one byte per
pixel, i.e. the pixmap width. -/
def rowBytes (pix : FzPixmap) : ℕ := pix.w

/-- The row-pointer table built by `write_png_fast`
(`rows[y] = pix->samples + y * pix->stride`), as offsets from the base. -/
def rowOffsets (pix : FzPixmap) : List ℕ :=
  (List.range pix.h).map (fun y => y * pix.stride)

/-- The scanline the encoder emits for the row starting at buffer offset
`off`: the next `rowBytes` bytes. -/
def readRow (pix : FzPixmap) (off : ℕ) : List ℕ :=
  (List.range (rowBytes pix)).map (fun x => pix.samples (off + x))

/-- Observable steps of the encoder, in order. -/
inductive PngEvent where
  | initIo : PngEvent
  | setCompressionLevel : ℕ → PngEvent
  | writeHeader : ℕ → ℕ → ℕ → Bool → PngEvent
  | writeScanline : List ℕ → PngEvent
  | writeEnd : PngEvent
deriving DecidableEq

/-- Whether an encoder event writes a scanline. -/
def PngEvent.isScanline : PngEvent → Bool
  | .writeScanline _ => true
  | _ => false

/-- The encoded image artifact: header fields and the scanline stream. -/
structure PngImage where
  width : ℕ
  height : ℕ
  bitDepth : ℕ
  colorGray : Bool
  interlaced : Bool
  zlevel : ℕ
  scanlines : List (List ℕ)

/-- The scanline stream the encoder emits: one scanline per entry of the
row-pointer table. -/
def pngScans (pix : FzPixmap) : List (List ℕ) :=
  (rowOffsets pix).map (readRow pix)

/-- The ordered event trace of a successful `write_png_fast` run (source
lines 19–33): `png_init_io`, `png_set_compression_level(png, 1)`,
`png_set_IHDR`/`png_write_info`, `png_write_image` row by row,
`png_write_end`. -/
def pngEvents (pix : FzPixmap) : List PngEvent :=
  [PngEvent.initIo,
   PngEvent.setCompressionLevel 1,
   PngEvent.writeHeader pix.w pix.h 8 true]
  ++ (pngScans pix).map PngEvent.writeScanline
  ++ [PngEvent.writeEnd]

/-- The image artifact a successful `write_png_fast` run produces. -/
def pngImage (pix : FzPixmap) : PngImage :=
  { width := pix.w
    height := pix.h
    bitDepth := 8
    colorGray := true
    interlaced := false
    zlevel := 1
    scanlines := pngScans pix }

/-- `write_png_fast pix canOpen pngOk`: the encoder.  `canOpen` is whether
`fopen(fname, "wb")` succeeds, `pngOk` whether libpng completes without an
internal error (`setjmp(png_jmpbuf)` not taken).  Failure exits the process
with code 2 resp. 3; success yields the ordered event trace and the written
image. -/
def write_png_fast (pix : FzPixmap) (canOpen pngOk : Bool) :
    Except ℕ (List PngEvent × PngImage) :=
  if !canOpen then .error 2
  else if !pngOk then .error 3
  else .ok (pngEvents pix, pngImage pix)

/-! ## The top-level pipeline (`main`) -/

/-- The fixed zoom matrix built at line 51 of the source:
`fz_scale(4.0f, 4.0f)`. -/
def zoomMtx : FzMatrix := fz_scale 4 4

/-- The effective transform the page content is actually rendered with: the
source passes `mtx` both as the draw device's transform (line 58) and as the
ctm of `fz_run_page` (line 59), and the draw device concatenates the two. -/
def effectiveRenderMtx : FzMatrix := renderCtm zoomMtx zoomMtx

/-- The output filename built at line 62:
`snprintf(out_name, sizeof out_name, "%s.png", argv[2])` with a 256-byte
buffer, i.e. the formatted string truncated to at most 255 characters. -/
def snprintfName (stem : String) : String :=
  ⟨(stem.data ++ ".png".data).take 255⟩

/-- The rasterizer stage (source lines 51–60): bound the page, scale by the
zoom matrix, round to integer pixel bounds, allocate a pixmap over that bbox
(gray colorspace, `alpha = 1`), clear it to white (0xFF), and run the page
through a draw device. -/
def rasterize (page : FzPage) (garbage : ℕ → ℕ) : FzPixmap :=
  let mtx := zoomMtx
  let bbox := fz_round_rect (fz_transform_rect page.bound mtx)
  let pix := fz_new_pixmap_with_bbox grayN bbox 1 garbage
  let cleared := fz_clear_pixmap_with_value pix 0xFF
  let dev := fz_new_draw_device mtx cleared
  fz_run_page page dev mtx

/-- The pixmap after allocation and clearing, before any drawing (the state
between lines 56 and 58 of the source). -/
def clearedPixmap (page : FzPage) (garbage : ℕ → ℕ) : FzPixmap :=
  fz_clear_pixmap_with_value
    (fz_new_pixmap_with_bbox grayN
      (fz_round_rect (fz_transform_rect page.bound zoomMtx)) 1 garbage) 0xFF

/-- How the process terminated. -/
inductive ExitOutcome where
  /-- The program itself exited with this status code. -/
  | exited : ℕ → ExitOutcome
  /-- Modelled from the spec: a document-open or page-load failure inside the
  rendering engine aborts the process at the engine's own level ("effectively
  silent-crash", spec §7); the program assigns it no exit code of its own. -/
  | engineAbort : ExitOutcome
deriving DecidableEq

/-- Everything external that one run of the program interacts with. -/
structure World where
  /-- Modelled from the spec: `fz_open_document` on a path yields a document,
  or fails if the file is missing, unreadable or unparseable. -/
  openDoc : String → Option FzDocument
  /-- Whether `fopen(name, "wb")` succeeds for a given output name. -/
  canWrite : String → Bool
  /-- Whether libpng completes without an internal error. -/
  pngOk : Bool
  /-- The arbitrary contents of freshly `malloc`ed pixmap memory. -/
  garbage : ℕ → ℕ
  /-- `clock_gettime` at the start of the run (seconds). -/
  t0 : ℚ
  /-- `clock_gettime` at the end of the run (seconds). -/
  t1 : ℚ

/-- The observable result of one run of `main`. -/
structure RunResult where
  /-- How the process terminated. -/
  exit : ExitOutcome
  /-- Whether the usage message was printed to standard error. -/
  stderrUsage : Bool
  /-- Whether the program ever opened the output path for writing. -/
  openedOutput : Bool
  /-- The one output file written on success: its name and contents. -/
  written : Option (String × PngImage)
  /-- The success line on standard output: the filename and elapsed seconds. -/
  stdoutLine : Option (String × ℚ)

/-- `main` (source lines 40–73): check the argument count, open the document,
load page 0, rasterize, build the output name and encode.  `args` is the full
argv, program name included; `argc != 3` means the positional argument count
is not two. -/
def runMain (w : World) (args : List String) : RunResult :=
  match args with
  | [_prog, inPath, stem] =>
    match w.openDoc inPath with
    | none =>
        { exit := .engineAbort, stderrUsage := false, openedOutput := false
          written := none, stdoutLine := none }
    | some doc =>
      match doc.pages[0]? with
      | none =>
          { exit := .engineAbort, stderrUsage := false, openedOutput := false
            written := none, stdoutLine := none }
      | some page =>
        let pix := rasterize page w.garbage
        let outName := snprintfName stem
        match write_png_fast pix (w.canWrite outName) w.pngOk with
        | .error c =>
            { exit := .exited c, stderrUsage := false, openedOutput := true
              written := none, stdoutLine := none }
        | .ok (_events, img) =>
            { exit := .exited 0, stderrUsage := false, openedOutput := true
              written := some (outName, img)
              stdoutLine := some (outName, w.t1 - w.t0) }
  | _ =>
      { exit := .exited 1, stderrUsage := true, openedOutput := false
        written := none, stdoutLine := none }

/-! ## Concrete test fixtures -/

/-- A blank US-Letter page: intrinsic bounding box 612×792 units, no content. -/
def letterPage : FzPage :=
  { bound := ⟨0, 0, 612, 792⟩, paint := fun _ _ => none }

/-- A page with a single content mark that the engine would paint at buffer
offset 0 precisely when rendered with the zoom transform itself. -/
def probePage : FzPage :=
  { bound := ⟨0, 0, 612, 792⟩
    paint := fun m o => if m = zoomMtx ∧ o = 0 then some 0 else none }

/-- A world holding a single-page US-Letter document at "in.pdf", with all
I/O succeeding. -/
def letterWorld : World :=
  { openDoc := fun p => if p = "in.pdf" then some ⟨[letterPage]⟩ else none
    canWrite := fun _ => true
    pngOk := true
    garbage := fun _ => 123
    t0 := 0
    t1 := 1 }

/-- The well-formed argv for the test world. -/
def letterArgs : List String := ["prog", "in.pdf", "out"]

/-- The test world with an unwritable output destination. -/
def noWriteWorld : World := { letterWorld with canWrite := fun _ => false }

/-- The test world with libpng failing internally. -/
def badPngWorld : World := { letterWorld with pngOk := false }

/-- A world in which no input path opens as a document. -/
def noDocWorld : World := { letterWorld with openDoc := fun _ => none }

/-- The test world again, with different uninitialized-memory contents and a
different clock. -/
def letterWorldB : World :=
  { letterWorld with garbage := fun o => o % 7, t0 := 10, t1 := 32 }

/-- A small pixel buffer (2×2 pixels, stride 3) whose byte at offset `o` is
`o`, for exercising the encoder on its own. -/
def tinyPix : FzPixmap :=
  { w := 2, h := 2, n := 1, stride := 3, samples := fun o => o }

/-- An output stem long enough to overflow the 256-byte `out_name` buffer. -/
def longStem : String := String.mk (List.replicate 252 'a')

/-! ## Supporting lemmas -/

theorem offset_lt {x w s y h : ℕ} (hx : x < w) (hw : w ≤ s) (hy : y < h) :
    y * s + x < s * h := by
  calc y * s + x < y * s + s := by omega
    _ = (y + 1) * s := by ring
    _ ≤ h * s := Nat.mul_le_mul_right s hy
    _ = s * h := Nat.mul_comm h s

/-- The pixmap the rasterizer hands to the encoder: its geometry. -/
theorem rasterize_geom (page : FzPage) (g : ℕ → ℕ) :
    (rasterize page g).w
        = irectW (fz_round_rect (fz_transform_rect page.bound zoomMtx)) ∧
    (rasterize page g).h
        = irectH (fz_round_rect (fz_transform_rect page.bound zoomMtx)) ∧
    (rasterize page g).n = 2 ∧
    (rasterize page g).stride = (rasterize page g).w * 2 :=
  ⟨rfl, rfl, rfl, rfl⟩

theorem rasterize_w_le_stride (page : FzPage) (g : ℕ → ℕ) :
    (rasterize page g).w ≤ (rasterize page g).stride := by
  have h := (rasterize_geom page g).2.2.2
  omega

/-- Byte contents of the rasterizer's output: inside the allocated region a
byte is what the page painted there (under the effective render transform) or
the white background; outside it is still uninitialized memory. -/
theorem rasterize_samples (page : FzPage) (g : ℕ → ℕ) (o : ℕ) :
    (rasterize page g).samples o =
      if o < (rasterize page g).stride * (rasterize page g).h then
        (page.paint effectiveRenderMtx o).getD 255
      else g o := by
  have h1 : (rasterize page g).samples o =
      if o < (rasterize page g).stride * (rasterize page g).h then
        (page.paint effectiveRenderMtx o).getD
          (if o < (rasterize page g).stride * (rasterize page g).h then 255 else g o)
      else (if o < (rasterize page g).stride * (rasterize page g).h then 255 else g o) :=
    rfl
  rw [h1]
  split <;> simp [*]

/-- The bytes of the cleared pixmap, before any drawing. -/
theorem clearedPixmap_samples (page : FzPage) (g : ℕ → ℕ) (o : ℕ) :
    (clearedPixmap page g).samples o =
      if o < (clearedPixmap page g).stride * (clearedPixmap page g).h then 255
      else g o :=
  rfl

/-- `runMain` on the success path. -/
theorem runMain_success (w : World) (prog inPath stem : String)
    (doc : FzDocument) (page : FzPage)
    (hdoc : w.openDoc inPath = some doc)
    (hpage : doc.pages[0]? = some page)
    (hcw : w.canWrite (snprintfName stem) = true)
    (hpng : w.pngOk = true) :
    runMain w [prog, inPath, stem] =
      { exit := .exited 0, stderrUsage := false, openedOutput := true
        written := some (snprintfName stem, pngImage (rasterize page w.garbage))
        stdoutLine := some (snprintfName stem, w.t1 - w.t0) } := by
  simp [runMain, hdoc, hpage, write_png_fast, hcw, hpng]

theorem snprintfName_short (stem : String) (h : stem.length ≤ 251) :
    snprintfName stem = stem ++ ".png" := by
  have h4 : ".png".data.length = 4 := rfl
  have hs : stem.data.length = stem.length := rfl
  have hlen : (stem.data ++ ".png".data).length ≤ 255 := by
    rw [List.length_append, h4, hs]; omega
  show String.mk ((stem.data ++ ".png".data).take 255) = stem ++ ".png"
  rw [List.take_of_length_le hlen]
  rfl

/-- Two pixel buffers of the same shape whose allocated bytes agree produce
the same scanline stream, whatever their out-of-buffer bytes. -/
theorem pngScans_congr (p q : FzPixmap) (hw : p.w = q.w) (hh : p.h = q.h)
    (hs : p.stride = q.stride) (hwle : p.w ≤ p.stride)
    (hsam : ∀ o, o < p.stride * p.h → p.samples o = q.samples o) :
    pngScans p = pngScans q := by
  unfold pngScans rowOffsets readRow rowBytes
  rw [← hw, ← hh, ← hs]
  refine List.map_congr_left ?_
  intro off hoff
  simp only [List.mem_map, List.mem_range] at hoff
  obtain ⟨y, hy, rfl⟩ := hoff
  refine List.map_congr_left ?_
  intro x hx
  rw [List.mem_range] at hx
  exact hsam _ (offset_lt hx hwle hy)

/-- The rasterizer's uninitialized-memory source does not influence the
encoder's output. -/
theorem write_rasterize_garbage_irrel (page : FzPage) (g1 g2 : ℕ → ℕ)
    (cw pk : Bool) :
    write_png_fast (rasterize page g1) cw pk
      = write_png_fast (rasterize page g2) cw pk := by
  have hscan : pngScans (rasterize page g1) = pngScans (rasterize page g2) :=
    pngScans_congr _ _ rfl rfl rfl (rasterize_w_le_stride page g1)
      (fun o ho => by
        have ho2 : o < (rasterize page g2).stride * (rasterize page g2).h := ho
        rw [rasterize_samples, rasterize_samples, if_pos ho, if_pos ho2])
  have hw : (rasterize page g1).w = (rasterize page g2).w := rfl
  have hh : (rasterize page g1).h = (rasterize page g2).h := rfl
  unfold write_png_fast
  cases cw <;> cases pk <;>
    simp [pngEvents, pngImage, hscan, hw, hh]

/-! ## Claims -/

/-- C1: for every valid single-page document whose rendering pipeline
completes, the output image's width and height equal the page's intrinsic
bounding box scaled by the zoom factor 4.0 and rounded outward to integer
pixel bounds, and the image is declared grayscale with 8-bit depth. -/
theorem claim_C1_output_dimensions (w : World) (prog inPath stem : String)
    (doc : FzDocument) (page : FzPage)
    (hdoc : w.openDoc inPath = some doc)
    (hpage : doc.pages[0]? = some page)
    (hcw : w.canWrite (snprintfName stem) = true)
    (hpng : w.pngOk = true) :
    ∃ name img, (runMain w [prog, inPath, stem]).written = some (name, img) ∧
      img.width = irectW (fz_round_rect (fz_transform_rect page.bound zoomMtx)) ∧
      img.height = irectH (fz_round_rect (fz_transform_rect page.bound zoomMtx)) ∧
      img.bitDepth = 8 ∧ img.colorGray = true := by
  rw [runMain_success w prog inPath stem doc page hdoc hpage hcw hpng]
  exact ⟨_, _, rfl, rfl, rfl, rfl, rfl⟩

/-- C1 witness: a single-page document with page bounding box 612×792 units
yields a 2448×3168 grayscale 8-bit image. -/
theorem claim_C1_output_dimensions_witness :
    letterWorld.openDoc "in.pdf" = some ⟨[letterPage]⟩ ∧
    (⟨[letterPage]⟩ : FzDocument).pages[0]? = some letterPage ∧
    letterWorld.canWrite (snprintfName "out") = true ∧
    letterWorld.pngOk = true ∧
    letterPage.bound = ⟨0, 0, 612, 792⟩ ∧
    ∃ name img, (runMain letterWorld ["prog", "in.pdf", "out"]).written
        = some (name, img) ∧
      img.width = 2448 ∧ img.height = 3168 ∧ img.bitDepth = 8 ∧
      img.colorGray = true := by
  refine ⟨rfl, rfl, rfl, rfl, rfl, ?_⟩
  obtain ⟨name, img, h1, h2, h3, h4, h5⟩ :=
    claim_C1_output_dimensions letterWorld "prog" "in.pdf" "out"
      ⟨[letterPage]⟩ letterPage rfl rfl rfl rfl
  refine ⟨name, img, h1, ?_, ?_, h4, h5⟩
  · rw [h2]; decide
  · rw [h3]; decide

/-- C2: every byte of the allocated `stride × height` region is 255 (white)
before any drawing operation, and after rendering every byte of the buffer's
allocated region is either 255 or a value the rendering of page content
produced there. -/
theorem claim_C2_background_invariant (page : FzPage) (g : ℕ → ℕ) (o : ℕ)
    (ho : o < (clearedPixmap page g).stride * (clearedPixmap page g).h) :
    (clearedPixmap page g).samples o = 255 ∧
    ((rasterize page g).samples o = 255 ∨
      ∃ v, page.paint effectiveRenderMtx o = some v ∧
        (rasterize page g).samples o = v) := by
  have hsh : (rasterize page g).stride = (clearedPixmap page g).stride := rfl
  have hh : (rasterize page g).h = (clearedPixmap page g).h := rfl
  constructor
  · rw [clearedPixmap_samples, if_pos ho]
  · rw [rasterize_samples, if_pos (by rw [hsh, hh]; exact ho)]
    cases hp : page.paint effectiveRenderMtx o with
    | none => left; rfl
    | some v => right; exact ⟨v, rfl, rfl⟩

/-- C2 witness: at buffer offset 5 of the blank-letter-page run the cleared
buffer holds 255 and the rendered buffer holds 255 or painted content. -/
theorem claim_C2_background_invariant_witness :
    5 < (clearedPixmap letterPage letterWorld.garbage).stride
          * (clearedPixmap letterPage letterWorld.garbage).h ∧
    ((clearedPixmap letterPage letterWorld.garbage).samples 5 = 255 ∧
      ((rasterize letterPage letterWorld.garbage).samples 5 = 255 ∨
        ∃ v, letterPage.paint effectiveRenderMtx 5 = some v ∧
          (rasterize letterPage letterWorld.garbage).samples 5 = v)) :=
  ⟨by decide, claim_C2_background_invariant letterPage letterWorld.garbage 5
    (by decide)⟩

/-- C7: when the input path does not open as a document, the process stops
with a document-open failure, writes nothing, and never opens the output
path for writing. -/
theorem claim_C7_no_output_on_open_failure (w : World) (prog inPath stem : String)
    (hdoc : w.openDoc inPath = none) :
    (runMain w [prog, inPath, stem]).exit = .engineAbort ∧
    (runMain w [prog, inPath, stem]).written = none ∧
    (runMain w [prog, inPath, stem]).openedOutput = false := by
  simp [runMain, hdoc]

/-- C7 witness: in a world where no document opens, the run aborts in the
engine with no output file and no output-path open. -/
theorem claim_C7_no_output_on_open_failure_witness :
    noDocWorld.openDoc "in.pdf" = none ∧
    ((runMain noDocWorld letterArgs).exit = .engineAbort ∧
      (runMain noDocWorld letterArgs).written = none ∧
      (runMain noDocWorld letterArgs).openedOutput = false) :=
  ⟨rfl, claim_C7_no_output_on_open_failure noDocWorld "prog" "in.pdf" "out" rfl⟩

/-- C8 (refuted; code bug): the transform actually used to render the page is
NOT the transform that sized the pixel buffer.  The source passes the 4×
scale both as the draw device's transform (line 58) and as the ctm of
`fz_run_page` (line 59); the draw device composes the two, so content is
rendered at effective scale 16 into a buffer sized for scale 4.  Concretely:
page point (200, 200) belongs to the buffer under the 4× transform (device
point (800, 800), inside the rounded 2448×3168 bounds) but is rendered to
(3200, 3200), outside the buffer; and content a page would show under the 4×
transform (probePage's mark at offset 0) is absent from the rasterized
buffer, which still holds the white background there. -/
theorem claim_C8_transform_mismatch :
    effectiveRenderMtx = fz_scale 16 16 ∧
    effectiveRenderMtx ≠ zoomMtx ∧
    (rasterize probePage (fun _ => 123)).samples 0 = 255 ∧
    probePage.paint zoomMtx 0 = some 0 ∧
    fz_transform_point zoomMtx 200 200 = (800, 800) ∧
    pointInIrect (fz_round_rect (fz_transform_rect probePage.bound zoomMtx))
      (800, 800) ∧
    fz_transform_point effectiveRenderMtx 200 200 = (3200, 3200) ∧
    ¬ pointInIrect (fz_round_rect (fz_transform_rect probePage.bound zoomMtx))
      (3200, 3200) := by
  exact ⟨by decide, by decide, by decide, by decide, by decide, by decide,
    by decide, by decide⟩

/-- C3: the exit status maps to the outcome: status 1 exactly when the
argument count is wrong (with the usage message on standard error), status 0
exactly when one image file was written, status 2 when the output file cannot
be opened for writing, status 3 when the encoding library fails internally.
Document-open and page-load failures terminate inside the rendering engine
and carry no program-chosen status. -/
theorem claim_C3_exit_codes (w : World) :
    (∀ args, (runMain w args).exit = .exited 1 ↔ args.length ≠ 3) ∧
    (∀ args, args.length ≠ 3 → (runMain w args).stderrUsage = true) ∧
    (∀ args, (runMain w args).exit = .exited 0
        ↔ (runMain w args).written.isSome = true) ∧
    (∀ prog inPath stem doc page,
      w.openDoc inPath = some doc → doc.pages[0]? = some page →
      (w.canWrite (snprintfName stem) = false →
          (runMain w [prog, inPath, stem]).exit = .exited 2) ∧
      (w.canWrite (snprintfName stem) = true → w.pngOk = false →
          (runMain w [prog, inPath, stem]).exit = .exited 3)) := by
  refine ⟨?_, ?_, ?_, ?_⟩
  · intro args
    rcases args with _ | ⟨a, (_ | ⟨b, (_ | ⟨c, (_ | ⟨d, rest⟩)⟩)⟩)⟩
    · simp [runMain]
    · simp [runMain]
    · simp [runMain]
    · cases hdoc : w.openDoc b with
      | none => simp [runMain, hdoc]
      | some doc =>
        cases hpage : doc.pages[0]? with
        | none => simp [runMain, hdoc, hpage]
        | some page =>
          cases hcw : w.canWrite (snprintfName c) <;> cases hpk : w.pngOk <;>
            simp [runMain, hdoc, hpage, write_png_fast, hcw, hpk]
    · simp [runMain]
  · intro args h
    rcases args with _ | ⟨a, (_ | ⟨b, (_ | ⟨c, (_ | ⟨d, rest⟩)⟩)⟩)⟩
    · rfl
    · rfl
    · rfl
    · simp at h
    · rfl
  · intro args
    rcases args with _ | ⟨a, (_ | ⟨b, (_ | ⟨c, (_ | ⟨d, rest⟩)⟩)⟩)⟩
    · simp [runMain]
    · simp [runMain]
    · simp [runMain]
    · cases hdoc : w.openDoc b with
      | none => simp [runMain, hdoc]
      | some doc =>
        cases hpage : doc.pages[0]? with
        | none => simp [runMain, hdoc, hpage]
        | some page =>
          cases hcw : w.canWrite (snprintfName c) <;> cases hpk : w.pngOk <;>
            simp [runMain, hdoc, hpage, write_png_fast, hcw, hpk]
    · simp [runMain]
  · intro prog inPath stem doc page hdoc hpage
    constructor
    · intro hcw
      simp [runMain, hdoc, hpage, write_png_fast, hcw]
    · intro hcw hpk
      simp [runMain, hdoc, hpage, write_png_fast, hcw, hpk]

/-- C3 witness: concrete runs exercising each exit status: 1 on a bad
argument count (with usage on stderr), 0 on success, 2 when the output path
cannot be opened, 3 when libpng fails. -/
theorem claim_C3_exit_codes_witness :
    (["prog"] : List String).length ≠ 3 ∧
    letterWorld.openDoc "in.pdf" = some ⟨[letterPage]⟩ ∧
    (⟨[letterPage]⟩ : FzDocument).pages[0]? = some letterPage ∧
    noWriteWorld.canWrite (snprintfName "out") = false ∧
    badPngWorld.canWrite (snprintfName "out") = true ∧
    badPngWorld.pngOk = false ∧
    (runMain letterWorld ["prog"]).exit = .exited 1 ∧
    (runMain letterWorld ["prog"]).stderrUsage = true ∧
    (runMain letterWorld letterArgs).exit = .exited 0 ∧
    (runMain noWriteWorld letterArgs).exit = .exited 2 ∧
    (runMain badPngWorld letterArgs).exit = .exited 3 := by
  have h1 := claim_C3_exit_codes letterWorld
  have h2 := claim_C3_exit_codes noWriteWorld
  have h3 := claim_C3_exit_codes badPngWorld
  refine ⟨by decide, rfl, rfl, rfl, rfl, rfl, ?_, ?_, ?_, ?_, ?_⟩
  · exact (h1.1 ["prog"]).mpr (by decide)
  · exact h1.2.1 ["prog"] (by decide)
  · exact (h1.2.2.1 letterArgs).mpr rfl
  · exact (h2.2.2.2 "prog" "in.pdf" "out" ⟨[letterPage]⟩ letterPage rfl rfl).1 rfl
  · exact (h3.2.2.2 "prog" "in.pdf" "out" ⟨[letterPage]⟩ letterPage rfl rfl).2 rfl rfl

/-- C4: on a successful encode the image holds exactly `h` scanlines, in
strict increasing row order, each exactly once, and the scanline for row `y`
is read starting at buffer offset `y * stride`. -/
theorem claim_C4_scanline_order (pix : FzPixmap) :
    ∃ events img, write_png_fast pix true true = .ok (events, img) ∧
      img.scanlines.length = pix.h ∧
      img.scanlines
        = (List.range pix.h).map (fun y => readRow pix (y * pix.stride)) ∧
      ∀ y, y < pix.h → img.scanlines[y]? = some (readRow pix (y * pix.stride)) := by
  refine ⟨pngEvents pix, pngImage pix, rfl, ?_, ?_, ?_⟩
  · simp [pngImage, pngScans, rowOffsets]
  · simp [pngImage, pngScans, rowOffsets, List.map_map, Function.comp]
  · intro y hy
    simp [pngImage, pngScans, rowOffsets, List.map_map, Function.comp,
      List.getElem?_range hy]

/-- C4 witness: on the 2×2/stride-3 buffer the encoder emits two scanlines
and row 1 is the two bytes at offsets 3 and 4. -/
theorem claim_C4_scanline_order_witness :
    1 < tinyPix.h ∧
    ∃ events img, write_png_fast tinyPix true true = .ok (events, img) ∧
      img.scanlines.length = 2 ∧ img.scanlines[1]? = some [3, 4] := by
  refine ⟨by decide, ?_⟩
  obtain ⟨e, i, h1, h2, h3, h4⟩ := claim_C4_scanline_order tinyPix
  refine ⟨e, i, h1, by rw [h2]; rfl, ?_⟩
  rw [h4 1 (by decide)]
  decide

/-- C5: the encoder sets the compression effort to the library's lowest
(fastest) level before writing any scanline: the event trace contains
`setCompressionLevel Z_BEST_SPEED` at an index before which no scanline has
been written. -/
theorem claim_C5_compression_level_first (pix : FzPixmap) :
    ∃ events img, write_png_fast pix true true = .ok (events, img) ∧
      ∃ i, events[i]? = some (.setCompressionLevel zBestSpeed) ∧
        ((events.take i).all fun e => !e.isScanline) = true :=
  ⟨pngEvents pix, pngImage pix, rfl, 1, rfl, rfl⟩

/-- C6 (amended): for every output stem that fits the 256-byte `out_name`
buffer (length ≤ 251 characters), the single output artifact written on
success is named exactly `<stem>.png`. -/
theorem claim_C6_output_name (w : World) (prog inPath stem : String)
    (doc : FzDocument) (page : FzPage)
    (hdoc : w.openDoc inPath = some doc)
    (hpage : doc.pages[0]? = some page)
    (hcw : w.canWrite (snprintfName stem) = true)
    (hpng : w.pngOk = true)
    (hlen : stem.length ≤ 251) :
    ∃ img, (runMain w [prog, inPath, stem]).written
        = some (stem ++ ".png", img) := by
  rw [runMain_success w prog inPath stem doc page hdoc hpage hcw hpng,
      snprintfName_short stem hlen]
  exact ⟨_, rfl⟩

/-- C6 witness: stem "out" yields exactly one artifact named "out.png". -/
theorem claim_C6_output_name_witness :
    ("out" : String).length ≤ 251 ∧
    ∃ img, (runMain letterWorld letterArgs).written = some ("out" ++ ".png", img) :=
  ⟨by decide, claim_C6_output_name letterWorld "prog" "in.pdf" "out"
    ⟨[letterPage]⟩ letterPage rfl rfl rfl rfl (by decide)⟩

set_option maxRecDepth 16000 in
/-- C6 counterexample: with a 252-character stem the run still writes exactly
one file, but its name is the `snprintf`-truncated string, which is not
`<stem>.png`. -/
theorem claim_C6_output_name_cex :
    (runMain letterWorld ["prog", "in.pdf", longStem]).written.map Prod.fst
        = some (snprintfName longStem) ∧
    snprintfName longStem ≠ longStem ++ ".png" := by
  constructor
  · rfl
  · decide

/-- C9: the output file (name and encoded image) is a deterministic function
of the documents, the writability of the destination and the encoder's
health: two runs on the same input agree byte for byte even when the clock
readings and the contents of uninitialized memory differ. -/
theorem claim_C9_determinism (w1 w2 : World) (args : List String)
    (hdoc : w1.openDoc = w2.openDoc)
    (hcw : w1.canWrite = w2.canWrite)
    (hpng : w1.pngOk = w2.pngOk) :
    (runMain w1 args).written = (runMain w2 args).written := by
  rcases args with _ | ⟨a, (_ | ⟨b, (_ | ⟨c, (_ | ⟨d, rest⟩)⟩)⟩)⟩
  · rfl
  · rfl
  · rfl
  · cases hd : w2.openDoc b with
    | none => simp [runMain, hdoc, hd]
    | some doc =>
      cases hp : doc.pages[0]? with
      | none => simp [runMain, hdoc, hd, hp]
      | some page =>
        have hkey := write_rasterize_garbage_irrel page w1.garbage w2.garbage
          (w2.canWrite (snprintfName c)) w2.pngOk
        simp only [runMain, hdoc, hcw, hpng, hd, hp, hkey]
        cases hres : write_png_fast (rasterize page w2.garbage)
            (w2.canWrite (snprintfName c)) w2.pngOk <;> simp
  · rfl

/-- C9 witness: two runs over the same document, one with a different clock
and different uninitialized memory, produce the same output file. -/
theorem claim_C9_determinism_witness :
    letterWorld.openDoc = letterWorldB.openDoc ∧
    letterWorld.canWrite = letterWorldB.canWrite ∧
    letterWorld.pngOk = letterWorldB.pngOk ∧
    (runMain letterWorld letterArgs).written
      = (runMain letterWorldB letterArgs).written :=
  ⟨rfl, rfl, rfl,
    claim_C9_determinism letterWorld letterWorldB letterArgs rfl rfl rfl⟩

/-- C10: for every pixel buffer with width ≤ stride (as the rasterizer
guarantees), the encoder's row-pointer table has exactly `h` entries, entry
`y` holds offset `y * stride`, and every byte the encoder reads through it
lies inside the allocated (and pre-cleared) `stride * h`-byte region. -/
theorem claim_C10_row_table_in_bounds (pix : FzPixmap) (hw : pix.w ≤ pix.stride) :
    (rowOffsets pix).length = pix.h ∧
    (∀ y, y < pix.h → (rowOffsets pix)[y]? = some (y * pix.stride)) ∧
    (∀ off, off ∈ rowOffsets pix → ∀ x, x < rowBytes pix →
      off + x < pix.stride * pix.h) := by
  refine ⟨by simp [rowOffsets], ?_, ?_⟩
  · intro y hy
    simp [rowOffsets, List.getElem?_range hy]
  · intro off hoff x hx
    simp only [rowOffsets, List.mem_map, List.mem_range] at hoff
    obtain ⟨y, hy, rfl⟩ := hoff
    exact offset_lt hx hw hy

set_option maxRecDepth 40000 in
/-- C10 witness: on the rasterizer's own buffer for the letter page (width
2448, stride 4896, height 3168) the table has 3168 entries, entry 2 is
offset 9792, and the last byte of that row, offset 9792 + 2447, is inside
the allocated region. -/
theorem claim_C10_row_table_in_bounds_witness :
    (rasterize letterPage letterWorld.garbage).w
        ≤ (rasterize letterPage letterWorld.garbage).stride ∧
    (rowOffsets (rasterize letterPage letterWorld.garbage)).length = 3168 ∧
    (rowOffsets (rasterize letterPage letterWorld.garbage))[2]? = some 9792 ∧
    9792 + 2447 < (rasterize letterPage letterWorld.garbage).stride
        * (rasterize letterPage letterWorld.garbage).h := by
  have h := claim_C10_row_table_in_bounds
    (rasterize letterPage letterWorld.garbage) (by decide)
  refine ⟨by decide, ?_, ?_, ?_⟩
  · rw [h.1]; decide
  · rw [h.2.1 2 (by decide)]; decide
  · exact h.2.2 9792 (by decide) 2447 (by decide)

end Kui
